import Mathlib

/-!
Verification of the multi-tier document search engine of the sample MCP server.

The development shallowly embeds the two search entry points of
app/services/mongodb_service.py (MongoDBService.search_documents and
MongoDBService.search_documents_semantic) together with the MCP tool wrappers of
app/mcp_server.py that expose them.

Modelling conventions, fixed once here:

* Text is modelled as lists of characters (Python strings and the stored fields).
  Case folding uses Char.toLower, matching Python str.lower and the Mongo
  case-insensitive regex option on the ASCII texts the engine handles.
* Query strings are treated as literal text inside the regular expressions the
  code interpolates them into; regex metacharacters inside a query are not
  modelled.  The word-boundary and negative-lookahead structure of the regexes
  is modelled exactly.
* Relevance scores are exact numbers.  Every score constant of the code is a
  multiple of one tenth (15, 5, 0.3, 0.2, 0.1, 8, 2, 1, -2, 3, and the native
  text score of the store), so scores are represented as integers measured in
  tenths of the code units: the code value s corresponds to the model value
  10 * s.  This rescaling preserves all sums, differences, comparisons and the
  max operation the code performs, and keeps kernel evaluation exact.
* The backing document store is a list of stored records in natural (insertion)
  order.  The native text index is an external collaborator: whether a record
  matches the $text search for the current query, and with which native score,
  is part of the store snapshot (the textScore field).
* Fallible store calls are modelled in the Except monad.  The TierFail argument
  injects an unexpected store failure into one chosen tier find call, modelling
  a Python exception raised by that call; the code has no exception handler
  inside the service, so the embedding shows where such an error surfaces.
  Two store behaviours that raise on their own are modelled directly: an $or
  filter built from an empty list is rejected by Mongo, and the $limit pipeline
  stage rejects a non-positive argument.
* A Mongo cursor limit of 0 means no limit; mongoLimit models this documented
  cursor semantics.
-/

deriving instance DecidableEq for Except

namespace MCPSearch

/-- Python strings are modelled as lists of characters. -/
abbrev Str := List Char

/-- Scores in tenths of the code units (code value s is model value 10 * s). -/
abbrev Score := Int

/-- Python str.lower, on the ASCII texts the engine handles. -/
def lowerStr (s : Str) : Str := s.map Char.toLower

/-- needle is a prefix of hay (chars compared exactly). -/
def strStartsWith : Str → Str → Bool
  | [], _ => true
  | _ :: _, [] => false
  | a :: as, b :: bs => a == b && strStartsWith as bs

/-- Python substring containment: needle occurs contiguously in hay. -/
def containsStr (needle : Str) : Str → Bool
  | [] => strStartsWith needle []
  | c :: t => strStartsWith needle (c :: t) || containsStr needle t

/-- Word characters of the regex word boundary escape. -/
def isWordChar (c : Char) : Bool := c.isAlphanum || c == '_'

def isWordOpt : Option Char → Bool
  | some c => isWordChar c
  | none => false

/-- A regex word boundary sits between two positions of different wordness;
positions outside the text count as non word. -/
def wordBoundary (a b : Option Char) : Bool := isWordOpt a != isWordOpt b

/-- The four technical suffix words of the conceptual-tier negative lookahead. -/
def techWords : List Str := [
  ['s', 'e', 'a', 'r', 'c', 'h'],
  ['a', 'p', 'i'],
  ['t', 'o', 'o', 'l'],
  ['f', 'u', 'n', 'c', 't', 'i', 'o', 'n']]

/-- Does one of the technical words start here (case already folded)? -/
def techWordAt (l : Str) : Bool := techWords.any (fun w => strStartsWith w l)

/-- Matches the lookahead body: one or more whitespace characters followed by a
technical word, anywhere the whitespace run is cut. -/
def wsThenTech : Str → Bool
  | [] => false
  | c :: t => c.isWhitespace && (techWordAt t || wsThenTech t)

/-- One candidate position of the conceptual content regex: the query matches
here, with a word boundary on each side, and the negative lookahead
(no whitespace run followed by a technical word) succeeds after the match. -/
def conceptAt (ql : Str) (prev : Option Char) (rest : Str) : Bool :=
  strStartsWith ql rest
    && wordBoundary prev rest.head?
    && wordBoundary (if ql.isEmpty then prev else ql.getLast?) ((rest.drop ql.length).head?)
    && !(wsThenTech (rest.drop ql.length))

/-- Scan of all positions of the content for the conceptual content regex. -/
def conceptScan (ql : Str) (prev : Option Char) : Str → Bool
  | [] => conceptAt ql prev []
  | c :: t => conceptAt ql prev (c :: t) || conceptScan ql (some c) t

/-- The content branch of the conceptual tier filter: the regex
\b{query}\b(?!\s+(search|api|tool|function)) with the case-insensitive option,
the query taken as literal text. -/
def conceptualContentMatch (q content : Str) : Bool :=
  conceptScan (lowerStr q) none (lowerStr content)

/-- A stored record of the collection, together with the per-call verdict of
the external text index: textScore is some s exactly when the record matches
the $text search for the current query, s being the native score in tenths. -/
structure StoredDoc where
  oid : Str
  content : Str
  title : Option Str
  descr : Option Str
  createdAt : Int
  textScore : Option Score
deriving DecidableEq, Repr

/-- The pydantic Document model built by Document(**doc).  The model declares
id, content, metadata and the two timestamps; it has no search-score field, and
its constructor silently ignores the extra _search_score key of the dict, so
the searchScoreAttr field modelling getattr lookup is always none after
conversion. -/
structure Document where
  id : Str
  content : Str
  title : Option Str
  descr : Option Str
  createdAt : Int
  searchScoreAttr : Option Score
deriving DecidableEq, Repr

/-- Document(**doc) after the dict id field is set from the popped store _id:
the extra score key is dropped by pydantic. -/
def StoredDoc.toDocument (d : StoredDoc) : Document :=
  ⟨d.oid, d.content, d.title, d.descr, d.createdAt, none⟩

/-- The optional filter_dict, modelled as the record predicate it denotes;
updating a tier filter dict with it conjoins the two conditions. -/
abbrev StoreFilter := StoredDoc → Bool

/-- Mongo cursor limit: a limit of 0 is documented to mean no limit at all. -/
def mongoLimit (n : Nat) (l : List α) : List α := if n = 0 then l else l.take n

/-- The title lookup of the record with the empty string as default. -/
def titleStr (d : StoredDoc) : Str := d.title.getD []

/-- Title branch regex ^{query}$ with option i: the title equals the query up
to case.  A record without a title field never matches a title regex. -/
def titleExact (q : Str) (d : StoredDoc) : Bool :=
  match d.title with
  | some t => lowerStr t == lowerStr q
  | none => false

/-- Title branch regex ^what is {query} with option i. -/
def titleWhatIs (q : Str) (d : StoredDoc) : Bool :=
  match d.title with
  | some t => strStartsWith (['w', 'h', 'a', 't', ' ', 'i', 's', ' '] ++ lowerStr q) (lowerStr t)
  | none => false

/-- The $or of the three conceptual tier branches. -/
def conceptualMatch (q : Str) (d : StoredDoc) : Bool :=
  titleExact q d || titleWhatIs q d || conceptualContentMatch q d.content

/-- Conceptual tier score: base 15, plus 5 when the title field is present and
contains the lower-cased query (values in tenths: 150 and 50). -/
def conceptualScore (q : Str) (d : StoredDoc) : Score :=
  150 + (match d.title with
    | some t => if containsStr (lowerStr q) (lowerStr t) then 50 else 0
    | none => 0)

/-- Conceptual tier: find with the conceptual filter conjoined with the
optional filter_dict, cursor limit limit // 3, each hit scored. -/
def tier1Docs (store : List StoredDoc) (q : Str) (limit : Nat) (fl : StoreFilter) :
    List (StoredDoc × Score) :=
  (mongoLimit (limit / 3) (store.filter (fun d => conceptualMatch q d && fl d))).map
    (fun d => (d, conceptualScore q d))

/-- The six technical phrase patterns built from the lower-cased query. -/
def technicalPhrases (ql : Str) : List Str :=
  [ql ++ [' ', 's', 'e', 'a', 'r', 'c', 'h'],
   ql ++ [' ', 'a', 'p', 'i'],
   ql ++ [' ', 't', 'o', 'o', 'l'],
   ql ++ [' ', 'f', 'u', 'n', 'c', 't', 'i', 'o', 'n'],
   ['s', 'e', 'a', 'r', 'c', 'h', ' '] ++ ql,
   ['u', 's', 'i', 'n', 'g', ' '] ++ ql]

/-- The five conceptual indicator phrases of the full-text tier. -/
def conceptualIndicators : List Str := [
  ['w', 'h', 'a', 't', ' ', 'i', 's'],
  ['d', 'e', 'f', 'i', 'n', 'i', 't', 'i', 'o', 'n'],
  ['o', 'v', 'e', 'r', 'v', 'i', 'e', 'w'],
  ['i', 'n', 't', 'r', 'o', 'd', 'u', 'c', 't', 'i', 'o', 'n'],
  ['a', 'b', 'o', 'u', 't']]

/-- A phrase hits a record when it occurs in the lower-cased content or in the
lower-cased title (empty when the title field is absent). -/
def phraseHits (d : StoredDoc) (ph : Str) : Bool :=
  containsStr ph (lowerStr d.content) || containsStr ph (lowerStr (titleStr d))

/-- The penalty accumulation loop: 0.3 (3 tenths) per matched technical phrase. -/
def textPenalty (ql : Str) (d : StoredDoc) : Score :=
  (technicalPhrases ql).foldl (fun acc ph => if phraseHits d ph then acc + 3 else acc) 0

/-- The bonus accumulation loop: 0.2 (2 tenths) per matched indicator. -/
def textBonus (d : StoredDoc) : Score :=
  conceptualIndicators.foldl (fun acc ph => if phraseHits d ph then acc + 2 else acc) 0

/-- Full-text tier score: the native base score (popped with default
1.0 = 10 tenths), minus the penalties, plus the bonuses, clamped below at
0.1 (1 tenth). -/
def fullTextScore (ql : Str) (d : StoredDoc) : Score :=
  max 1 (d.textScore.getD 10 - textPenalty ql d + textBonus d)

/-- The sort of the $text cursor by the meta textScore, descending. -/
def textSort (l : List StoredDoc) : List StoredDoc :=
  l.insertionSort (fun a b => b.textScore.getD 10 ≤ a.textScore.getD 10)

/-- Full-text tier: $text find conjoined with the optional filter, sorted by
native score, cursor limit remaining, then the client loop that skips every
identity the conceptual tier collected before scoring. -/
def tier2Docs (store : List StoredDoc) (ql : Str) (fl : StoreFilter)
    (conceptIds : List Str) (remaining : Nat) : List (StoredDoc × Score) :=
  ((mongoLimit remaining (textSort (store.filter (fun d => d.textScore.isSome && fl d)))).filter
      (fun d => decide (d.oid ∉ conceptIds))).map
    (fun d => (d, fullTextScore ql d))

/-- Python str.split with no argument: split on whitespace runs, no empty
tokens.  The accumulator holds the current token reversed. -/
def splitWsAux (cur : Str) : Str → List Str
  | [] => if cur.isEmpty then [] else [cur.reverse]
  | c :: t =>
    if c.isWhitespace then
      if cur.isEmpty then splitWsAux [] t else cur.reverse :: splitWsAux [] t
    else splitWsAux (c :: cur) t

def splitWs (l : Str) : List Str := splitWsAux [] l

/-- query_lower.split() keeping only the tokens longer than 2 characters. -/
def keywordsOf (ql : Str) : List Str := (splitWs ql).filter (fun w => 2 < w.length)

/-- The $or of per-keyword case-insensitive content regexes. -/
def keywordMatch (kws : List Str) (d : StoredDoc) : Bool :=
  kws.any (fun k => containsStr k (lowerStr d.content))

/-- Keyword fallback tier: find with the keyword $or conjoined with the
optional filter, cursor limit remaining, skipping every identity already
present; every match gets the fixed score 0.3 (3 tenths). -/
def tier3Docs (store : List StoredDoc) (kws : List Str) (fl : StoreFilter)
    (existingIds : List Str) (remaining : Nat) : List (StoredDoc × Score) :=
  ((mongoLimit remaining (store.filter (fun d => keywordMatch kws d && fl d))).filter
      (fun d => decide (d.oid ∉ existingIds))).map
    (fun d => (d, (3 : Score)))

/-- Errors a search call can surface: an unexpected store failure (a raised
exception of the driver), or the Mongo rejection of an $or built from an empty
list, or the Mongo rejection of a non-positive $limit stage. -/
inductive SearchErr
  | storeFailure
  | emptyOrQuery
  | invalidLimit
deriving DecidableEq, Repr

/-- Which tier find call, if any, raises an unexpected store error. -/
inductive TierFail
  | none
  | conceptual
  | fulltext
  | fallback
deriving DecidableEq, Repr

/-- Ghost tag recording which tier produced a merged entry. -/
inductive Tier
  | conceptual
  | fulltext
  | fallback
deriving DecidableEq, Repr

/-- remaining_limit = limit - len(conceptual_docs); Python compares it with 0
before any later use, so the truncated Nat subtraction agrees with the Python
value on every guard and cursor limit of the code. -/
def remainingOf (store : List StoredDoc) (q : Str) (limit : Nat) (fl : StoreFilter) : Nat :=
  limit - (tier1Docs store q limit fl).length

/-- conceptual_ids, the identity set collected by the conceptual tier. -/
def conceptIdsOf (store : List StoredDoc) (q : Str) (limit : Nat) (fl : StoreFilter) : List Str :=
  (tier1Docs store q limit fl).map (fun p => p.1.oid)

/-- The full-text tier as run inside search_documents: only dispatched while
budget remains. -/
def tier2Of (store : List StoredDoc) (q : Str) (limit : Nat) (fl : StoreFilter) :
    List (StoredDoc × Score) :=
  if 0 < remainingOf store q limit fl then
    tier2Docs store (lowerStr q) fl (conceptIdsOf store q limit fl) (remainingOf store q limit fl)
  else []

/-- The fallback trigger condition of the code: the documents gathered by the
first two tiers number strictly less than limit // 2, and the full-text tier
still had remaining budget. -/
def fallbackTrigger (store : List StoredDoc) (q : Str) (limit : Nat) (fl : StoreFilter) : Bool :=
  decide ((tier1Docs store q limit fl).length + (tier2Of store q limit fl).length < limit / 2)
    && decide (0 < remainingOf store q limit fl)

/-- existing_ids, the identity set gathered by the first two tiers. -/
def existingIdsOf (store : List StoredDoc) (q : Str) (limit : Nat) (fl : StoreFilter) : List Str :=
  conceptIdsOf store q limit fl ++ (tier2Of store q limit fl).map (fun p => p.1.oid)

/-- The keyword fallback tier as run inside search_documents. -/
def tier3Of (store : List StoredDoc) (q : Str) (limit : Nat) (fl : StoreFilter) :
    List (StoredDoc × Score) :=
  if fallbackTrigger store q limit fl then
    tier3Docs store (keywordsOf (lowerStr q)) fl (existingIdsOf store q limit fl)
      (remainingOf store q limit fl)
  else []

/-- The three sequential tiers of search_documents in the failure-free run,
each entry tagged with its tier: the concatenation models the documents list
the code accumulates (tier order is append order). -/
def searchTiers (store : List StoredDoc) (q : Str) (limit : Nat) (fl : StoreFilter) :
    List (Tier × StoredDoc × Score) :=
  (tier1Docs store q limit fl).map (fun p => (Tier.conceptual, p))
    ++ (tier2Of store q limit fl).map (fun p => (Tier.fulltext, p))
    ++ (tier3Of store q limit fl).map (fun p => (Tier.fallback, p))

/-- The tier pipeline of MongoDBService.search_documents with its store calls in
program order: the conceptual find runs first, the $text find only when budget
remains, the fallback find only when triggered; an injected failure surfaces
exactly when its find call is reached, and a triggered fallback find whose
keyword list is empty is rejected by the store (empty $or).  The service method
has no exception handler, so every store error propagates. -/
def searchMergedE (store : List StoredDoc) (fail : TierFail) (q : Str) (limit : Nat)
    (fl : StoreFilter) : Except SearchErr (List (Tier × StoredDoc × Score)) :=
  if fail = TierFail.conceptual then .error .storeFailure
  else if fail = TierFail.fulltext ∧ 0 < remainingOf store q limit fl then
    .error .storeFailure
  else if fail = TierFail.fallback ∧ fallbackTrigger store q limit fl = true then
    .error .storeFailure
  else if fallbackTrigger store q limit fl = true ∧ keywordsOf (lowerStr q) = [] then
    .error .emptyOrQuery
  else .ok (searchTiers store q limit fl)

/-- The final Python sort: documents.sort(key=..., reverse=True), a stable sort
descending by the getattr lookup of the dropped score attribute (default 0). -/
def pySortScoreDesc (l : List Document) : List Document :=
  l.insertionSort (fun a b => b.searchScoreAttr.getD 0 ≤ a.searchScoreAttr.getD 0)

/-- MongoDBService.search_documents: run the tiers, convert every gathered dict
with Document(**doc) (dropping the score key), sort, and truncate to limit. -/
def searchDocumentsE (store : List StoredDoc) (fail : TierFail) (q : Str) (limit : Nat)
    (fl : StoreFilter) : Except SearchErr (List Document) :=
  (searchMergedE store fail q limit fl).map
    (fun m => (pySortScoreDesc (m.map (fun x => x.2.1.toDocument))).take limit)

/-- The $match stage of the pipeline mode: text hit, or content, title or
description containing the query case-insensitively, conjoined with the
optional filter. -/
def semanticMatch (q : Str) (d : StoredDoc) : Bool :=
  (d.textScore.isSome
      || containsStr (lowerStr q) (lowerStr d.content)
      || (match d.title with
          | some t => containsStr (lowerStr q) (lowerStr t)
          | none => false)
      || (match d.descr with
          | some t => containsStr (lowerStr q) (lowerStr t)
          | none => false))

/-- The $addFields composite score as a function of its seven condition inputs
(weights in tenths: 5 is 50, 8 is 80, 2 is 20, 1 is 10, -2 is -20, 3 is 30);
the text term contributes the native score only when it is positive. -/
def relevanceScoreF (ts : Score) (titleSub whatIs shortDoc recent techPen conceptLang : Bool) :
    Score :=
  (if 0 < ts then ts else 0) + (if titleSub then 50 else 0) + (if whatIs then 80 else 0)
    + (if shortDoc then 20 else 0) + (if recent then 10 else 0)
    + (if techPen then -20 else 0) + (if conceptLang then 30 else 0)

/-- The technical usage penalty regex {query} (search|api|tool|function) with
option i: the query, a space, then one of the four words, as a substring. -/
def techUsage (ql : Str) (contentL : Str) : Bool :=
  techWords.any (fun w => containsStr (ql ++ [' '] ++ w) contentL)

/-- The conceptual language regex (what is|definition|overview|introduction)
with option i; note the pipeline list has four phrases, without about. -/
def conceptLangMatch (contentL : Str) : Bool :=
  [(['w', 'h', 'a', 't', ' ', 'i', 's'] : Str),
   ['d', 'e', 'f', 'i', 'n', 'i', 't', 'i', 'o', 'n'],
   ['o', 'v', 'e', 'r', 'v', 'i', 'e', 'w'],
   ['i', 'n', 't', 'r', 'o', 'd', 'u', 'c', 't', 'i', 'o', 'n']].any
    (fun w => containsStr w contentL)

/-- The seven condition inputs evaluated on a record: title substring match,
what-is title anchor, content shorter than 1000 characters, created within the
last 30 days of now, technical usage penalty, conceptual language bonus.
A missing textScore contributes 0 through the positivity guard. -/
def relevanceScore (q : Str) (now : Int) (d : StoredDoc) : Score :=
  relevanceScoreF (d.textScore.getD 0)
    (match d.title with
      | some t => containsStr (lowerStr q) (lowerStr t)
      | none => false)
    (match d.title with
      | some t => strStartsWith (['w', 'h', 'a', 't', ' ', 'i', 's', ' '] ++ lowerStr q) (lowerStr t)
      | none => false)
    (decide (d.content.length < 1000))
    (decide (now - 30 < d.createdAt))
    (techUsage (lowerStr q) (lowerStr d.content))
    (conceptLangMatch (lowerStr d.content))

/-- The $sort stage: relevance score descending, creation time descending. -/
def semSort (q : Str) (now : Int) (l : List StoredDoc) : List StoredDoc :=
  l.insertionSort (fun a b =>
    relevanceScore q now b < relevanceScore q now a
      ∨ (relevanceScore q now a = relevanceScore q now b ∧ b.createdAt ≤ a.createdAt))

/-- MongoDBService.search_documents_semantic: the single aggregation pipeline
($match, $addFields, $sort, $limit) followed by the conversion loop.  The
$limit stage rejects a non-positive argument; an injected store failure models
the aggregate call raising. -/
def searchSemanticE (store : List StoredDoc) (fail : Bool) (q : Str) (limit : Nat)
    (now : Int) (fl : StoreFilter) : Except SearchErr (List Document) :=
  if fail then .error .storeFailure
  else if limit = 0 then .error .invalidLimit
  else .ok (((semSort q now (store.filter (fun d => semanticMatch q d && fl d))).take limit).map
    StoredDoc.toDocument)

/-- The dict entry the MCP tools build per document; only the fields the claims
speak about are modelled (id, the possibly truncated content, and the reported
relevance score, a getattr with default 1 = 10 tenths). -/
structure MCPEntry where
  id : Str
  content : Str
  relevance : Score
deriving DecidableEq, Repr

/-- The per-document formatting of both MCP search tools: content truncated to
its first 500 characters with an appended ellipsis when longer than 500. -/
def mcpFormatDoc (d : Document) : MCPEntry :=
  { id := d.id
    content := if 500 < d.content.length then d.content.take 500 ++ ['.', '.', '.'] else d.content
    relevance := d.searchScoreAttr.getD 10 }

/-- The MCP tool search_documents: calls the service with no filter, formats the
result, and turns any exception into an empty list (the except branch). -/
def mcpSearchDocuments (store : List StoredDoc) (fail : TierFail) (q : Str) (limit : Nat) :
    List MCPEntry :=
  match searchDocumentsE store fail q limit (fun _ => true) with
  | .error _ => []
  | .ok docs => docs.map mcpFormatDoc

/-- The MCP tool search_documents_semantic: same shape over the pipeline mode. -/
def mcpSearchDocumentsSemantic (store : List StoredDoc) (fail : Bool) (q : Str) (limit : Nat)
    (now : Int) : List MCPEntry :=
  match searchSemanticE store fail q limit now (fun _ => true) with
  | .error _ => []
  | .ok docs => docs.map mcpFormatDoc

/-- The final merge the spec describes, modelled from the spec for comparison:
concatenate the tier outputs, stable sort descending by the attached tier
score, truncate to limit. -/
def specSortedMerge (m : List (Tier × StoredDoc × Score)) (limit : Nat) : List Document :=
  ((m.insertionSort (fun a b => b.2.2 ≤ a.2.2)).map (fun x => x.2.1.toDocument)).take limit

/-- The matched technical phrases of the full-text tier, counted. -/
def matchedPhraseCount (ql : Str) (d : StoredDoc) : Nat :=
  ((technicalPhrases ql).filter (phraseHits d)).length

/-- The matched conceptual indicators of the full-text tier, counted. -/
def matchedIndicatorCount (d : StoredDoc) : Nat :=
  (conceptualIndicators.filter (phraseHits d)).length

/-- Concrete record: a $text hit for the query cache (native score 1.0 = 10)
whose content carries one technical phrase penalty. -/
def docA : StoredDoc := ⟨"a".toList, "using caches daily".toList, none, none, 0, some 10⟩

/-- Concrete record: a $text hit for the query cache (native score 0.9 = 9)
whose content carries one conceptual indicator bonus. -/
def docB : StoredDoc :=
  ⟨"b".toList, "definition of speed".toList, some "Beta".toList, none, 0, some 9⟩

/-- Concrete record whose title equals the query alpha up to case. -/
def docD : StoredDoc := ⟨"d".toList, "intro".toList, some "Alpha".toList, none, 0, none⟩

/-- Concrete record reachable only through the keyword fallback tier for the
query alpha: the content contains alpha only as part of a longer word. -/
def docE : StoredDoc := ⟨"e".toList, "alphabet soup".toList, none, none, 0, none⟩

section Helpers

@[simp]
theorem toDocument_id (d : StoredDoc) : (StoredDoc.toDocument d).id = d.oid := rfl

@[simp]
theorem toDocument_content (d : StoredDoc) : (StoredDoc.toDocument d).content = d.content := rfl

theorem mongoLimit_sublist (n : Nat) (l : List α) : List.Sublist (mongoLimit n l) l := by
  unfold mongoLimit
  split
  · exact List.Sublist.refl l
  · exact List.take_sublist n l

theorem mem_mongoLimit {a : α} {n : Nat} {l : List α} (h : a ∈ mongoLimit n l) : a ∈ l :=
  (mongoLimit_sublist n l).subset h

theorem exceptMap_ok {ε α β : Type} {f : α → β} {e : Except ε α} {b : β}
    (h : Except.map f e = .ok b) : ∃ a, e = .ok a ∧ b = f a := by
  cases e with
  | error err => simp [Except.map] at h
  | ok a =>
    refine ⟨a, rfl, ?_⟩
    simpa [Except.map] using h.symm

theorem mergedE_ok {store : List StoredDoc} {fail : TierFail} {q : Str} {limit : Nat}
    {fl : StoreFilter} {m : List (Tier × StoredDoc × Score)}
    (h : searchMergedE store fail q limit fl = .ok m) : m = searchTiers store q limit fl := by
  unfold searchMergedE at h
  split_ifs at h <;> simp_all

theorem searchDocumentsE_ok {store : List StoredDoc} {fail : TierFail} {q : Str} {limit : Nat}
    {fl : StoreFilter} {res : List Document}
    (h : searchDocumentsE store fail q limit fl = .ok res) :
    res = (pySortScoreDesc ((searchTiers store q limit fl).map
      (fun x => x.2.1.toDocument))).take limit := by
  unfold searchDocumentsE at h
  obtain ⟨m, hm, hb⟩ := exceptMap_ok h
  rw [mergedE_ok hm] at hb
  exact hb

theorem conceptIds_eq (store : List StoredDoc) (q : Str) (limit : Nat) (fl : StoreFilter) :
    conceptIdsOf store q limit fl =
      (mongoLimit (limit / 3) (store.filter (fun d => conceptualMatch q d && fl d))).map
        StoredDoc.oid := by
  simp [conceptIdsOf, tier1Docs, List.map_map, Function.comp]

theorem tier1_ids_nodup {store : List StoredDoc} (q : Str) (limit : Nat) (fl : StoreFilter)
    (h : (store.map StoredDoc.oid).Nodup) : (conceptIdsOf store q limit fl).Nodup := by
  rw [conceptIds_eq]
  exact h.sublist (((mongoLimit_sublist _ _).trans (List.filter_sublist _)).map _)

theorem tier2Docs_ids_nodup {store : List StoredDoc} (ql : Str) (fl : StoreFilter)
    (ids : List Str) (r : Nat) (h : (store.map StoredDoc.oid).Nodup) :
    ((tier2Docs store ql fl ids r).map (fun p => p.1.oid)).Nodup := by
  unfold tier2Docs
  rw [List.map_map]
  have h1 : ((store.filter (fun d => d.textScore.isSome && fl d)).map StoredDoc.oid).Nodup :=
    h.sublist ((List.filter_sublist _).map _)
  have h2 : ((textSort (store.filter (fun d => d.textScore.isSome && fl d))).map
      StoredDoc.oid).Nodup := by
    refine (List.Perm.nodup_iff ?_).mpr h1
    exact (List.perm_insertionSort _ _).map _
  exact h2.sublist (((List.filter_sublist _).trans (mongoLimit_sublist _ _)).map _)

theorem tier3Docs_ids_nodup {store : List StoredDoc} (kws : List Str) (fl : StoreFilter)
    (ids : List Str) (r : Nat) (h : (store.map StoredDoc.oid).Nodup) :
    ((tier3Docs store kws fl ids r).map (fun p => p.1.oid)).Nodup := by
  unfold tier3Docs
  rw [List.map_map]
  have h1 : ((store.filter (fun d => keywordMatch kws d && fl d)).map StoredDoc.oid).Nodup :=
    h.sublist ((List.filter_sublist _).map _)
  exact h1.sublist (((List.filter_sublist _).trans (mongoLimit_sublist _ _)).map _)

theorem tier2Docs_skips {store : List StoredDoc} {ql : Str} {fl : StoreFilter} {ids : List Str}
    {r : Nat} {p : StoredDoc × Score} (hp : p ∈ tier2Docs store ql fl ids r) :
    p.1.oid ∉ ids := by
  unfold tier2Docs at hp
  obtain ⟨d, hd, rfl⟩ := List.mem_map.mp hp
  exact of_decide_eq_true (List.mem_filter.mp hd).2

theorem tier3Docs_skips {store : List StoredDoc} {kws : List Str} {fl : StoreFilter}
    {ids : List Str} {r : Nat} {p : StoredDoc × Score} (hp : p ∈ tier3Docs store kws fl ids r) :
    p.1.oid ∉ ids := by
  unfold tier3Docs at hp
  obtain ⟨d, hd, rfl⟩ := List.mem_map.mp hp
  exact of_decide_eq_true (List.mem_filter.mp hd).2

theorem tier1Docs_mem_store {store : List StoredDoc} {q : Str} {limit : Nat} {fl : StoreFilter}
    {p : StoredDoc × Score} (hp : p ∈ tier1Docs store q limit fl) : p.1 ∈ store := by
  unfold tier1Docs at hp
  obtain ⟨d, hd, rfl⟩ := List.mem_map.mp hp
  exact List.mem_of_mem_filter (mem_mongoLimit hd)

theorem tier2Docs_mem_store {store : List StoredDoc} {ql : Str} {fl : StoreFilter}
    {ids : List Str} {r : Nat} {p : StoredDoc × Score} (hp : p ∈ tier2Docs store ql fl ids r) :
    p.1 ∈ store := by
  unfold tier2Docs at hp
  obtain ⟨d, hd, rfl⟩ := List.mem_map.mp hp
  have h1 := mem_mongoLimit (List.mem_filter.mp hd).1
  have h2 : d ∈ store.filter (fun d => d.textScore.isSome && fl d) := by
    unfold textSort at h1
    exact (List.perm_insertionSort _ _).mem_iff.mp h1
  exact List.mem_of_mem_filter h2

theorem tier3Docs_mem_store {store : List StoredDoc} {kws : List Str} {fl : StoreFilter}
    {ids : List Str} {r : Nat} {p : StoredDoc × Score} (hp : p ∈ tier3Docs store kws fl ids r) :
    p.1 ∈ store := by
  unfold tier3Docs at hp
  obtain ⟨d, hd, rfl⟩ := List.mem_map.mp hp
  exact List.mem_of_mem_filter (mem_mongoLimit (List.mem_filter.mp hd).1)

theorem tier2Of_ids_nodup {store : List StoredDoc} (q : Str) (limit : Nat) (fl : StoreFilter)
    (h : (store.map StoredDoc.oid).Nodup) :
    ((tier2Of store q limit fl).map (fun p => p.1.oid)).Nodup := by
  unfold tier2Of
  split
  · exact tier2Docs_ids_nodup _ _ _ _ h
  · simp

theorem tier3Of_ids_nodup {store : List StoredDoc} (q : Str) (limit : Nat) (fl : StoreFilter)
    (h : (store.map StoredDoc.oid).Nodup) :
    ((tier3Of store q limit fl).map (fun p => p.1.oid)).Nodup := by
  unfold tier3Of
  split
  · exact tier3Docs_ids_nodup _ _ _ _ h
  · simp

theorem searchTiers_ids_eq (store : List StoredDoc) (q : Str) (limit : Nat) (fl : StoreFilter) :
    (searchTiers store q limit fl).map (fun x => x.2.1.oid) =
      conceptIdsOf store q limit fl ++ (tier2Of store q limit fl).map (fun p => p.1.oid)
        ++ (tier3Of store q limit fl).map (fun p => p.1.oid) := by
  unfold searchTiers conceptIdsOf
  simp only [List.map_append, List.map_map]
  rfl

theorem searchTiers_ids_nodup {store : List StoredDoc} (q : Str) (limit : Nat) (fl : StoreFilter)
    (h : (store.map StoredDoc.oid).Nodup) :
    ((searchTiers store q limit fl).map (fun x => x.2.1.oid)).Nodup := by
  rw [searchTiers_ids_eq]
  have n1 := tier1_ids_nodup q limit fl h
  have n2 := tier2Of_ids_nodup q limit fl h
  have n3 := tier3Of_ids_nodup q limit fl h
  have d12 : (conceptIdsOf store q limit fl).Disjoint
      ((tier2Of store q limit fl).map (fun p => p.1.oid)) := by
    intro a ha hb
    obtain ⟨p, hp, rfl⟩ := List.mem_map.mp hb
    unfold tier2Of at hp
    split at hp
    · exact tier2Docs_skips hp ha
    · simp at hp
  have d3 : ∀ a ∈ (tier3Of store q limit fl).map (fun p => p.1.oid),
      a ∉ existingIdsOf store q limit fl := by
    intro a ha
    obtain ⟨p, hp, rfl⟩ := List.mem_map.mp ha
    unfold tier3Of at hp
    split at hp
    · exact tier3Docs_skips hp
    · simp at hp
  rw [List.append_assoc]
  refine List.nodup_append.mpr ⟨n1, List.nodup_append.mpr ⟨n2, n3, ?_⟩, ?_⟩
  · intro a ha hb
    have := d3 a hb
    exact this (by
      unfold existingIdsOf
      exact List.mem_append_right _ ha)
  · intro a ha hb
    rcases List.mem_append.mp hb with h2 | h3
    · exact d12 ha h2
    · exact d3 a h3 (by
        unfold existingIdsOf
        exact List.mem_append_left _ ha)

theorem searchTiers_mem_store {store : List StoredDoc} {q : Str} {limit : Nat} {fl : StoreFilter}
    {x : Tier × StoredDoc × Score} (hx : x ∈ searchTiers store q limit fl) : x.2.1 ∈ store := by
  unfold searchTiers at hx
  rcases List.mem_append.mp hx with h12 | h3
  · rcases List.mem_append.mp h12 with h1 | h2
    · obtain ⟨p, hp, rfl⟩ := List.mem_map.mp h1
      exact tier1Docs_mem_store hp
    · obtain ⟨p, hp, rfl⟩ := List.mem_map.mp h2
      unfold tier2Of at hp
      split at hp
      · exact tier2Docs_mem_store hp
      · simp at hp
  · obtain ⟨p, hp, rfl⟩ := List.mem_map.mp h3
    unfold tier3Of at hp
    split at hp
    · exact tier3Docs_mem_store hp
    · simp at hp

theorem searchDocumentsE_mem {store : List StoredDoc} {fail : TierFail} {q : Str} {limit : Nat}
    {fl : StoreFilter} {res : List Document} {d : Document}
    (h : searchDocumentsE store fail q limit fl = .ok res) (hd : d ∈ res) :
    ∃ s ∈ store, d = s.toDocument := by
  rw [searchDocumentsE_ok h] at hd
  have hd1 := List.mem_of_mem_take hd
  have hd2 : d ∈ (searchTiers store q limit fl).map (fun x => x.2.1.toDocument) := by
    unfold pySortScoreDesc at hd1
    exact (List.perm_insertionSort _ _).mem_iff.mp hd1
  obtain ⟨x, hx, rfl⟩ := List.mem_map.mp hd2
  exact ⟨x.2.1, searchTiers_mem_store hx, rfl⟩

theorem searchSemanticE_mem {store : List StoredDoc} {fail : Bool} {q : Str} {limit : Nat}
    {now : Int} {fl : StoreFilter} {res : List Document} {d : Document}
    (h : searchSemanticE store fail q limit now fl = .ok res) (hd : d ∈ res) :
    ∃ s ∈ store, d = s.toDocument := by
  unfold searchSemanticE at h
  split_ifs at h <;> cases h
  obtain ⟨s, hs, rfl⟩ := List.mem_map.mp hd
  have hs1 := List.mem_of_mem_take hs
  have hs2 : s ∈ store.filter (fun d => semanticMatch q d && fl d) := by
    unfold semSort at hs1
    exact (List.perm_insertionSort _ _).mem_iff.mp hs1
  exact ⟨s, List.mem_of_mem_filter hs2, rfl⟩

theorem foldl_if_count (l : List α) (p : α → Bool) (c : Int) (a : Int) :
    l.foldl (fun acc x => if p x then acc + c else acc) a
      = a + c * ((l.filter p).length : Int) := by
  induction l generalizing a with
  | nil => simp
  | cons x t ih =>
    by_cases hx : p x = true
    · simp only [List.foldl_cons, hx, if_true, List.filter_cons, ih]
      simp [hx]
      ring
    · simp only [List.foldl_cons, hx, if_false, List.filter_cons, ih]
      simp [hx]

theorem textPenalty_eq (ql : Str) (d : StoredDoc) :
    textPenalty ql d = 3 * (matchedPhraseCount ql d : Int) := by
  unfold textPenalty matchedPhraseCount
  rw [foldl_if_count]
  ring

theorem textBonus_eq (d : StoredDoc) :
    textBonus d = 2 * (matchedIndicatorCount d : Int) := by
  unfold textBonus matchedIndicatorCount
  rw [foldl_if_count]
  ring

theorem splitWsAux_no_ws (l : Str) : ∀ cur : Str, (∀ c ∈ cur, c.isWhitespace = false) →
    ∀ w ∈ splitWsAux cur l, ∀ c ∈ w, c.isWhitespace = false := by
  induction l with
  | nil =>
    intro cur hcur w hw
    unfold splitWsAux at hw
    split at hw
    · simp at hw
    · simp only [List.mem_singleton] at hw
      subst hw
      intro c hc
      exact hcur c (List.mem_reverse.mp hc)
  | cons a t ih =>
    intro cur hcur w hw
    unfold splitWsAux at hw
    by_cases ha : a.isWhitespace = true
    · simp only [ha, if_true] at hw
      split at hw
      · exact ih [] (by simp) w hw
      · rcases List.mem_cons.mp hw with rfl | hw2
        · intro c hc
          exact hcur c (List.mem_reverse.mp hc)
        · exact ih [] (by simp) w hw2
    · simp only [ha, if_false] at hw
      refine ih (a :: cur) ?_ w hw
      intro c hc
      rcases List.mem_cons.mp hc with rfl | hc2
      · simpa using ha
      · exact hcur c hc2

theorem keywordsOf_tokens (ql : Str) :
    ∀ w ∈ keywordsOf ql, 2 < w.length ∧ ∀ c ∈ w, c.isWhitespace = false := by
  intro w hw
  unfold keywordsOf at hw
  have h1 := List.mem_filter.mp hw
  refine ⟨by simpa using h1.2, ?_⟩
  exact splitWsAux_no_ws ql [] (by simp) w h1.1

theorem tier3Docs_elem {store : List StoredDoc} {kws : List Str} {fl : StoreFilter}
    {ids : List Str} {r : Nat} {p : StoredDoc × Score} (hp : p ∈ tier3Docs store kws fl ids r) :
    p.2 = 3 ∧ keywordMatch kws p.1 = true := by
  unfold tier3Docs at hp
  obtain ⟨d, hd, rfl⟩ := List.mem_map.mp hp
  have h1 := List.mem_filter.mp (mem_mongoLimit (List.mem_filter.mp hd).1)
  have h2 := h1.2
  rw [Bool.and_eq_true] at h2
  exact ⟨rfl, h2.1⟩

theorem tier2Docs_elem {store : List StoredDoc} {ql : Str} {fl : StoreFilter} {ids : List Str}
    {r : Nat} {p : StoredDoc × Score} (hp : p ∈ tier2Docs store ql fl ids r) :
    p.2 = fullTextScore ql p.1 := by
  unfold tier2Docs at hp
  obtain ⟨d, hd, rfl⟩ := List.mem_map.mp hp
  rfl

end Helpers

/-- Claim C1: for every query string, every positive limit L and every filter,
both the standard-mode search and the pipeline-mode search return, whenever
they return at all, a list of at most L documents (standard mode truncates the
merged list to limit, pipeline mode ends with a $limit stage). -/
theorem search_results_length_le_limit (store : List StoredDoc) (fail : TierFail) (sfail : Bool)
    (q : Str) (limit : Nat) (fl : StoreFilter) (now : Int) (hL : 0 < limit) :
    (∀ res, searchDocumentsE store fail q limit fl = .ok res → res.length ≤ limit) ∧
    (∀ res, searchSemanticE store sfail q limit now fl = .ok res → res.length ≤ limit) := by
  constructor
  · intro res hres
    rw [searchDocumentsE_ok hres]
    exact List.length_take_le _ _
  · intro res hres
    unfold searchSemanticE at hres
    split_ifs at hres <;> cases hres
    rw [List.length_map]
    exact List.length_take_le _ _

/-- Witness for C1 at a concrete store: the standard mode with limit 2 and the
pipeline mode with limit 1 both return one document for the query alpha. -/
theorem search_results_length_le_limit_witness :
    [StoredDoc.toDocument docD].length ≤ 2 ∧ [StoredDoc.toDocument docD].length ≤ 1 :=
  ⟨(search_results_length_le_limit [docD] TierFail.none false ("alpha".toList) 2
      (fun _ => true) 0 (by decide)).1 [docD.toDocument] (by decide),
   (search_results_length_le_limit [docD] TierFail.none false ("alpha".toList) 1
      (fun _ => true) 0 (by decide)).2 [docD.toDocument] (by decide)⟩

/-- Claim C9: in the composite score of the pipeline mode, toggling any single
bonus condition on (title substring, what-is title anchor, short content,
recency, conceptual language) strictly increases the score of an otherwise
identical document, and toggling the technical-usage penalty condition on
strictly decreases it, by exactly 2 (20 tenths). -/
theorem relevance_score_monotonicity (ts : Score) (b1 b2 b3 b4 b5 b6 : Bool) :
    relevanceScoreF ts false b2 b3 b4 b5 b6 < relevanceScoreF ts true b2 b3 b4 b5 b6 ∧
    relevanceScoreF ts b1 false b3 b4 b5 b6 < relevanceScoreF ts b1 true b3 b4 b5 b6 ∧
    relevanceScoreF ts b1 b2 false b4 b5 b6 < relevanceScoreF ts b1 b2 true b4 b5 b6 ∧
    relevanceScoreF ts b1 b2 b3 false b5 b6 < relevanceScoreF ts b1 b2 b3 true b5 b6 ∧
    relevanceScoreF ts b1 b2 b3 b4 b5 false < relevanceScoreF ts b1 b2 b3 b4 b5 true ∧
    relevanceScoreF ts b1 b2 b3 b4 true b6 = relevanceScoreF ts b1 b2 b3 b4 false b6 - 20 ∧
    relevanceScoreF ts b1 b2 b3 b4 true b6 < relevanceScoreF ts b1 b2 b3 b4 false b6 := by
  unfold relevanceScoreF
  refine ⟨?_, ?_, ?_, ?_, ?_, ?_, ?_⟩ <;> simp <;> linarith

/-- Claim C5, corrected: a zero limit is not rejected.  The call proceeds and
dispatches the conceptual tier find (so an error injected there surfaces), and
only the final truncation makes the successful result empty. -/
theorem zero_limit_runs_tiers (store : List StoredDoc) (q : Str) (fl : StoreFilter) :
    searchDocumentsE store TierFail.none q 0 fl = .ok [] ∧
    searchDocumentsE store TierFail.conceptual q 0 fl = .error SearchErr.storeFailure := by
  constructor
  · have hr : remainingOf store q 0 fl = 0 := Nat.zero_sub _
    have ht : fallbackTrigger store q 0 fl = false := by
      unfold fallbackTrigger
      rw [hr]
      simp
    unfold searchDocumentsE searchMergedE
    rw [hr, ht]
    simp [Except.map]
  · unfold searchDocumentsE searchMergedE
    simp [Except.map]

/-- Counterexample to claim C5 as stated: with limit 0 the call is not treated
as invalid (it returns ok), the conceptual tier find is dispatched (injecting a
store failure there fails the call), and the conceptual cursor, whose limit
0 // 3 = 0 means no limit, actually fetched a document. -/
theorem zero_limit_counterexample :
    searchDocumentsE [docD] TierFail.none ("alpha".toList) 0 (fun _ => true) = .ok [] ∧
    searchDocumentsE [docD] TierFail.conceptual ("alpha".toList) 0 (fun _ => true) =
      .error SearchErr.storeFailure ∧
    tier1Docs [docD] ("alpha".toList) 0 (fun _ => true) = [(docD, 200)] :=
  ⟨by decide, by decide, by decide⟩

/-- Claim C7, amended: when the limit is at least 3 (so that limit // 3 is a
positive cursor limit) the conceptual tier gathers at most limit // 3
documents, and every gathered document is scored exactly 15 (150 tenths), or
exactly 20 (200 tenths) precisely when its metadata title contains the query
case-insensitively. -/
theorem conceptual_tier_budget_and_scores (store : List StoredDoc) (q : Str) (limit : Nat)
    (fl : StoreFilter) (h : 3 ≤ limit) :
    (tier1Docs store q limit fl).length ≤ limit / 3 ∧
    ∀ p ∈ tier1Docs store q limit fl,
      (p.2 = 150 ∨ p.2 = 200) ∧
      (p.2 = 200 ↔ ∃ t, p.1.title = some t ∧ containsStr (lowerStr q) (lowerStr t) = true) := by
  constructor
  · unfold tier1Docs mongoLimit
    rw [List.length_map]
    rw [if_neg (by omega : ¬ limit / 3 = 0)]
    exact List.length_take_le _ _
  · intro p hp
    unfold tier1Docs at hp
    obtain ⟨d, hd, rfl⟩ := List.mem_map.mp hp
    unfold conceptualScore
    cases ht : d.title with
    | none => simp
    | some t =>
      by_cases hc : containsStr (lowerStr q) (lowerStr t) = true
      · simp [hc]
      · simp [hc]

/-- Witness for the amended C7 at limit 3 on a one-document store. -/
theorem conceptual_tier_budget_and_scores_witness :
    (tier1Docs [docD] ("alpha".toList) 3 (fun _ => true)).length ≤ 3 / 3 ∧
    ∀ p ∈ tier1Docs [docD] ("alpha".toList) 3 (fun _ => true),
      (p.2 = 150 ∨ p.2 = 200) ∧
      (p.2 = 200 ↔ ∃ t, p.1.title = some t
        ∧ containsStr (lowerStr ("alpha".toList)) (lowerStr t) = true) :=
  conceptual_tier_budget_and_scores [docD] ("alpha".toList) 3 (fun _ => true) (by decide)

/-- Counterexample to claim C7 as stated: for the positive limit 2 the cursor
limit is 2 // 3 = 0, which the store treats as no limit, so the conceptual tier
gathers one document (more than 2 // 3 = 0) and that document reaches the final
result. -/
theorem conceptual_budget_counterexample :
    (2 : Nat) / 3 = 0 ∧
    tier1Docs [docD] ("alpha".toList) 2 (fun _ => true) = [(docD, 200)] ∧
    searchDocumentsE [docD] TierFail.none ("alpha".toList) 2 (fun _ => true) =
      .ok [StoredDoc.toDocument docD] :=
  ⟨by decide, by decide, by decide⟩

/-- Claim C6: every document scored by the full-text tier carries the score
max(0.1, native base score - 0.3 per matched technical phrase + 0.2 per
matched conceptual indicator) (in tenths: max 1 of base - 3 per phrase + 2 per
indicator, the absent native score defaulting to 1.0 = 10), and that score is
never below 0.1 (1 tenth). -/
theorem fulltext_tier_score_formula (store : List StoredDoc) (ql : Str) (fl : StoreFilter)
    (conceptIds : List Str) (remaining : Nat) :
    ∀ p ∈ tier2Docs store ql fl conceptIds remaining,
      p.2 = max 1 (p.1.textScore.getD 10
        - 3 * (matchedPhraseCount ql p.1 : Int) + 2 * (matchedIndicatorCount p.1 : Int)) ∧
      1 ≤ p.2 := by
  intro p hp
  have he := tier2Docs_elem hp
  constructor
  · rw [he]
    unfold fullTextScore
    rw [textPenalty_eq, textBonus_eq]
  · rw [he]
    unfold fullTextScore
    exact le_max_left _ _

/-- Witness for C6: a record with native score 0.9 (9 tenths), no technical
phrase and one conceptual indicator is scored 1.1 (11 tenths). -/
theorem fulltext_tier_score_formula_witness :
    (11 : Score) = max 1 (9 - 3 * (matchedPhraseCount ("cache".toList) docB : Int)
      + 2 * (matchedIndicatorCount docB : Int)) ∧ (1 : Score) ≤ 11 :=
  fulltext_tier_score_formula [docB] ("cache".toList) (fun _ => true) [] 5 (docB, 11) (by decide)

/-- Claim C2: under the store invariant that record identities are unique, no
identity appears twice in the returned list of the standard mode, for every
query, limit, filter and injected failure point: each later tier skips the
identities the earlier tiers collected. -/
theorem search_result_ids_nodup (store : List StoredDoc) (fail : TierFail) (q : Str)
    (limit : Nat) (fl : StoreFilter) (h : (store.map StoredDoc.oid).Nodup) :
    ∀ res, searchDocumentsE store fail q limit fl = .ok res → (res.map Document.id).Nodup := by
  intro res hres
  rw [searchDocumentsE_ok hres]
  have hids := searchTiers_ids_nodup q limit fl h
  have hbase : (((searchTiers store q limit fl).map (fun x => x.2.1.toDocument)).map
      Document.id).Nodup := by
    rw [List.map_map]
    exact hids
  have hsorted : ((pySortScoreDesc ((searchTiers store q limit fl).map
      (fun x => x.2.1.toDocument))).map Document.id).Nodup := by
    unfold pySortScoreDesc
    refine (List.Perm.nodup_iff ?_).mpr hbase
    exact (List.perm_insertionSort _ _).map _
  exact hsorted.sublist ((List.take_sublist _ _).map _)

/-- Witness for C2: the two-document cache store yields a result whose two
identities are distinct. -/
theorem search_result_ids_nodup_witness :
    (([StoredDoc.toDocument docA, StoredDoc.toDocument docB]).map Document.id).Nodup :=
  search_result_ids_nodup [docA, docB] TierFail.none ("cache".toList) 10 (fun _ => true)
    (by decide) [docA.toDocument, docB.toDocument] (by decide)

/-- The identities of the non-fallback part of the merged tier list are exactly
the existing identity set the fallback tier consults. -/
theorem searchTiers_nonfallback_ids (store : List StoredDoc) (q : Str) (limit : Nat)
    (fl : StoreFilter) :
    ((searchTiers store q limit fl).filter (fun y => decide (y.1 ≠ Tier.fallback))).map
      (fun y => y.2.1.oid) = existingIdsOf store q limit fl := by
  unfold searchTiers existingIdsOf conceptIdsOf
  rw [List.filter_append, List.filter_append]
  rw [List.filter_map, List.filter_map, List.filter_map]
  have h1 : ∀ l : List (StoredDoc × Score),
      l.filter ((fun y : Tier × StoredDoc × Score => decide (y.1 ≠ Tier.fallback))
        ∘ (fun p => (Tier.conceptual, p))) = l := by
    intro l
    exact List.filter_eq_self.mpr (fun a _ => by simp [Function.comp])
  have h2 : ∀ l : List (StoredDoc × Score),
      l.filter ((fun y : Tier × StoredDoc × Score => decide (y.1 ≠ Tier.fallback))
        ∘ (fun p => (Tier.fulltext, p))) = l := by
    intro l
    exact List.filter_eq_self.mpr (fun a _ => by simp [Function.comp])
  have h3 : ∀ l : List (StoredDoc × Score),
      l.filter ((fun y : Tier × StoredDoc × Score => decide (y.1 ≠ Tier.fallback))
        ∘ (fun p => (Tier.fallback, p))) = [] := by
    intro l
    exact List.filter_eq_nil_iff.mpr (fun a _ => by simp [Function.comp])
  rw [h1, h2, h3]
  simp only [List.map_append, List.map_map, List.map_nil, List.append_nil]
  rfl

/-- Claim C8: the keyword fallback tier.  Its store query is dispatched exactly
when the first two tiers gathered strictly fewer than limit // 2 documents and
the full-text tier had remaining budget (observable: an error injected into the
fallback find surfaces precisely then); every fallback document of the merged
list is scored exactly 0.3 (3 tenths), matches some kept keyword as a
case-insensitive substring of its content, and carries an identity absent from
the non-fallback part of the merge; and the kept keywords are exactly
whitespace-free tokens longer than 2 characters. -/
theorem keyword_fallback_characterization (store : List StoredDoc) (q : Str) (limit : Nat)
    (fl : StoreFilter) :
    (searchMergedE store TierFail.fallback q limit fl = .error SearchErr.storeFailure ↔
      fallbackTrigger store q limit fl = true) ∧
    (∀ m, searchMergedE store TierFail.none q limit fl = .ok m →
      ∀ x ∈ m, x.1 = Tier.fallback →
        x.2.2 = 3 ∧
        keywordMatch (keywordsOf (lowerStr q)) x.2.1 = true ∧
        x.2.1.oid ∉ (m.filter (fun y => decide (y.1 ≠ Tier.fallback))).map
          (fun y => y.2.1.oid)) ∧
    (∀ w ∈ keywordsOf (lowerStr q), 2 < w.length ∧ ∀ c ∈ w, c.isWhitespace = false) := by
  refine ⟨?_, ?_, keywordsOf_tokens _⟩
  · by_cases ht : fallbackTrigger store q limit fl = true
    · exact ⟨fun _ => ht, fun _ => by unfold searchMergedE; simp [ht]⟩
    · constructor
      · intro herr
        unfold searchMergedE at herr
        simp [ht] at herr
      · intro hw
        exact absurd hw ht
  · intro m hm x hx hxf
    have hmEq := mergedE_ok hm
    subst hmEq
    rw [searchTiers_nonfallback_ids]
    unfold searchTiers at hx
    rcases List.mem_append.mp hx with h12 | h3
    · rcases List.mem_append.mp h12 with h1 | h2
      · obtain ⟨p, _, rfl⟩ := List.mem_map.mp h1
        cases hxf
      · obtain ⟨p, _, rfl⟩ := List.mem_map.mp h2
        cases hxf
    · obtain ⟨p, hp, rfl⟩ := List.mem_map.mp h3
      unfold tier3Of at hp
      split at hp
      · have he := tier3Docs_elem hp
        exact ⟨he.1, he.2, tier3Docs_skips hp⟩
      · simp at hp

/-- Witness for C8: on a store whose only record is reachable through the
keyword tier alone, an error injected into the fallback find surfaces. -/
theorem keyword_fallback_characterization_witness :
    searchMergedE [docE] TierFail.fallback ("alpha".toList) 10 (fun _ => true) =
      .error SearchErr.storeFailure :=
  (keyword_fallback_characterization [docE] ("alpha".toList) 10 (fun _ => true)).1.mpr (by decide)

/-- Claim C4, amended, service side: the service method has no handler, so an
unexpected store error injected into any tier either aborts the whole call with
that error, or the failing find was never dispatched (its guard was off) and
the call behaves exactly as the failure-free run. -/
theorem tier_failure_propagates_in_service (store : List StoredDoc) (fail : TierFail) (q : Str)
    (limit : Nat) (fl : StoreFilter) (h : fail ≠ TierFail.none) :
    searchDocumentsE store fail q limit fl = .error SearchErr.storeFailure ∨
    searchDocumentsE store fail q limit fl = searchDocumentsE store TierFail.none q limit fl := by
  cases fail with
  | none => exact absurd rfl h
  | conceptual =>
    left
    unfold searchDocumentsE searchMergedE
    simp [Except.map]
  | fulltext =>
    by_cases hr : 0 < remainingOf store q limit fl
    · left
      unfold searchDocumentsE searchMergedE
      simp [hr, Except.map]
    · right
      unfold searchDocumentsE searchMergedE
      simp [hr]
  | fallback =>
    by_cases ht : fallbackTrigger store q limit fl = true
    · left
      unfold searchDocumentsE searchMergedE
      simp [ht, Except.map]
    · right
      unfold searchDocumentsE searchMergedE
      simp [ht]

/-- Witness for the amended C4: a full-text find failure on a store with
remaining budget fails the whole service call. -/
theorem tier_failure_propagates_in_service_witness :
    searchDocumentsE [docD] TierFail.fulltext ("alpha".toList) 5 (fun _ => true) =
      .error SearchErr.storeFailure ∨
    searchDocumentsE [docD] TierFail.fulltext ("alpha".toList) 5 (fun _ => true) =
      searchDocumentsE [docD] TierFail.none ("alpha".toList) 5 (fun _ => true) :=
  tier_failure_propagates_in_service [docD] TierFail.fulltext ("alpha".toList) 5
    (fun _ => true) (by decide)

/-- Counterexample to claim C4 as stated: the MCP tool layer masks errors.
A conceptual tier failure aborts the service call with a store error, yet the
MCP search tool returns an empty result list instead of propagating it. -/
theorem mcp_tool_masks_error :
    searchDocumentsE [docD] TierFail.conceptual ("alpha".toList) 5 (fun _ => true) =
      .error SearchErr.storeFailure ∧
    mcpSearchDocuments [docD] TierFail.conceptual ("alpha".toList) 5 = [] :=
  ⟨by decide, by decide⟩

/-- Claim C3, exhibited on the code: in the final result the attached scores
are ignored.  The full-text tier attaches 0.7 (7 tenths) to the first record
and 1.1 (11 tenths) to the second, the spec merge would rank the second first,
but pydantic drops the score attribute, every sort key is the getattr default,
and the stable sort returns the tier concatenation unchanged. -/
theorem final_sort_ignores_scores_bug :
    searchMergedE [docA, docB] TierFail.none ("cache".toList) 10 (fun _ => true) =
      .ok [(Tier.fulltext, docA, 7), (Tier.fulltext, docB, 11)] ∧
    (7 : Score) < 11 ∧
    searchDocumentsE [docA, docB] TierFail.none ("cache".toList) 10 (fun _ => true) =
      .ok [StoredDoc.toDocument docA, StoredDoc.toDocument docB] ∧
    specSortedMerge [(Tier.fulltext, docA, 7), (Tier.fulltext, docB, 11)] 10 =
      [StoredDoc.toDocument docB, StoredDoc.toDocument docA] :=
  ⟨by decide, by decide, by decide, by decide⟩

/-- Claim C10: every document reported by either MCP search tool carries the
content of a stored record, unchanged when it has at most 500 characters and
otherwise cut to its first 500 characters with an appended ellipsis; the
stored record itself (still in the store, with its full content) is never
modified. -/
theorem mcp_content_truncation (store : List StoredDoc) (fail : TierFail) (sfail : Bool)
    (q : Str) (limit : Nat) (now : Int) :
    (∀ e ∈ mcpSearchDocuments store fail q limit, ∃ s ∈ store, e.id = s.oid ∧
      e.content = if s.content.length ≤ 500 then s.content
        else s.content.take 500 ++ ['.', '.', '.']) ∧
    (∀ e ∈ mcpSearchDocumentsSemantic store sfail q limit now, ∃ s ∈ store, e.id = s.oid ∧
      e.content = if s.content.length ≤ 500 then s.content
        else s.content.take 500 ++ ['.', '.', '.']) := by
  constructor
  · intro e he
    unfold mcpSearchDocuments at he
    cases hD : searchDocumentsE store fail q limit (fun _ => true) with
    | error err =>
      rw [hD] at he
      simp at he
    | ok docs =>
      rw [hD] at he
      obtain ⟨d, hd, rfl⟩ := List.mem_map.mp he
      obtain ⟨s, hs, rfl⟩ := searchDocumentsE_mem hD hd
      refine ⟨s, hs, rfl, ?_⟩
      unfold mcpFormatDoc
      by_cases h5 : s.content.length ≤ 500
      · rw [toDocument_content, if_neg (by omega : ¬ 500 < s.content.length), if_pos h5]
      · rw [toDocument_content, if_pos (by omega : 500 < s.content.length), if_neg h5]
  · intro e he
    unfold mcpSearchDocumentsSemantic at he
    cases hD : searchSemanticE store sfail q limit now (fun _ => true) with
    | error err =>
      rw [hD] at he
      simp at he
    | ok docs =>
      rw [hD] at he
      obtain ⟨d, hd, rfl⟩ := List.mem_map.mp he
      obtain ⟨s, hs, rfl⟩ := searchSemanticE_mem hD hd
      refine ⟨s, hs, rfl, ?_⟩
      unfold mcpFormatDoc
      by_cases h5 : s.content.length ≤ 500
      · rw [toDocument_content, if_neg (by omega : ¬ 500 < s.content.length), if_pos h5]
      · rw [toDocument_content, if_pos (by omega : 500 < s.content.length), if_neg h5]

/-- Witness for C10: the reported entry for the short stored record keeps its
content verbatim. -/
theorem mcp_content_truncation_witness :
    ∃ s ∈ [docD], MCPEntry.id ⟨"d".toList, "intro".toList, 10⟩ = s.oid ∧
      MCPEntry.content ⟨"d".toList, "intro".toList, 10⟩ =
        if s.content.length ≤ 500 then s.content
        else s.content.take 500 ++ ['.', '.', '.'] :=
  (mcp_content_truncation [docD] TierFail.none false ("alpha".toList) 3 0).1
    ⟨"d".toList, "intro".toList, 10⟩ (by decide)

end MCPSearch
